import Mathlib

/-!
Shallow embedding of an event-sourced aggregate store written in
TypeScript (src/index.ts): an in-memory append-only event log, a closed
family of domain events, a Formation aggregate whose mutators emit
events, and a repository that rebuilds an aggregate by filtering,
sorting and folding its events.

Modelling conventions:
- Runtime values appearing in event payloads are modelled by the
  inductive type Value (the strings and integer numbers this program
  uses).
- The untyped changes payload (a plain JavaScript object) is modelled
  extensionally as a function from keys to optional values; a key that
  is absent and a key holding undefined are identified, which matches
  every read this program performs on these objects.
- createdAt is an ISO-8601 UTC string in the source; such strings
  compare lexicographically exactly in chronological order, so
  timestamps are modelled as natural numbers and the string comparison
  as the numeric comparison.
- Fields that the TypeScript types declare as string but that the
  dynamic semantics can leave undefined (the fields of an aggregate
  rehydrated from an empty projection) are modelled as Option Value,
  with none standing for both undefined and null.
- Methods that can throw are modelled with Except; the thrown message
  of DomainEvent.fromState is the fixed string thrown by the source.
- Mutation of the aggregate and of the store is modelled by explicit
  state passing: a mutator takes the object value and returns the
  updated value. Factories that stamp the current time take the clock
  reading as an extra argument named now.
-/

/-- A runtime value stored in an event payload or an aggregate field. -/
inductive Value where
  | str : String → Value
  | num : Nat → Value
deriving DecidableEq

/-- A JavaScript object used as a changes payload or a projection state,
viewed extensionally as a partial mapping from keys to values. -/
abbrev Changes := String → Option Value

/-- The empty object, the initial accumulator of the reduce in getById. -/
def emptyChanges : Changes := fun _ => none

/-- The event record shape (interface IEvent of the source): kind tag,
payload, creation timestamp and owning aggregate identifier. -/
structure IEvent where
  nom : String
  changes : Changes
  createdAt : Nat
  aggregateId : Option Value

/-- The closed family of domain events: FormationCreee and
FormationPlanifiee, each carrying aggregateId, changes and createdAt
exactly as the abstract class DomainEvent of the source does. -/
inductive DomainEvent where
  | formationCreee (aggregateId : Option Value) (changes : Changes) (createdAt : Nat)
  | formationPlanifiee (aggregateId : Option Value) (changes : Changes) (createdAt : Nat)

/-- The kind tag of a domain event (the readonly nom field of each
concrete subclass in the source). -/
def DomainEvent.nom : DomainEvent → String
  | .formationCreee _ _ _ => "FORMATION_CREEE"
  | .formationPlanifiee _ _ _ => "FORMATION_PLANIFIEE"

def DomainEvent.aggregateId : DomainEvent → Option Value
  | .formationCreee a _ _ => a
  | .formationPlanifiee a _ _ => a

def DomainEvent.changes : DomainEvent → Changes
  | .formationCreee _ c _ => c
  | .formationPlanifiee _ c _ => c

def DomainEvent.createdAt : DomainEvent → Nat
  | .formationCreee _ _ t => t
  | .formationPlanifiee _ _ t => t

/-- DomainEvent.toState of the source: serialize an event to its plain
record form. -/
def DomainEvent.toState (e : DomainEvent) : IEvent :=
  ⟨e.nom, e.changes, e.createdAt, e.aggregateId⟩

/-- The fixed message of the Error thrown by DomainEvent.fromState on an
unrecognized kind tag. -/
def unknownEventKindMessage : String := "Type d\x27évènement inconnu"

/-- DomainEvent.fromState of the source: dispatch on the kind tag,
reconstructing the matching subclass with the record fields (the stored
createdAt is passed through, not regenerated); any other tag throws a
fixed Error. -/
def DomainEvent.fromState (e : IEvent) : Except String DomainEvent :=
  if e.nom = "FORMATION_CREEE" then
    Except.ok (DomainEvent.formationCreee e.aggregateId e.changes e.createdAt)
  else if e.nom = "FORMATION_PLANIFIEE" then
    Except.ok (DomainEvent.formationPlanifiee e.aggregateId e.changes e.createdAt)
  else
    Except.error unknownEventKindMessage

/-- The static factory FormationCreee.creer: builds the event and stamps
the current clock reading as createdAt. -/
def FormationCreee.creer (aggregateId : Option Value) (data : Changes) (now : Nat) : DomainEvent :=
  DomainEvent.formationCreee aggregateId data now

/-- The static factory FormationPlanifiee.creer: builds the event and
stamps the current clock reading as createdAt. -/
def FormationPlanifiee.creer (aggregateId : Option Value) (data : Changes) (now : Nat) : DomainEvent :=
  DomainEvent.formationPlanifiee aggregateId data now

/-- The Formation aggregate: five projected fields plus the pending
event list inherited from the Aggregate base class. -/
structure Formation where
  id : Option Value
  nom : Option Value
  dureeEnHeures : Option Value
  date : Option Value
  nomFormateur : Option Value
  events : List DomainEvent

/-- Formation.fromState of the source (memento rehydration): read the
five known fields from the projection state, leave the pending event
list empty. A missing date or nomFormateur becomes null (none here); a
missing id, nom or dureeEnHeures stays undefined (also none here). -/
def Formation.fromState (state : Changes) : Formation :=
  ⟨state "id", state "nom", state "dureeEnHeures", state "date", state "nomFormateur", []⟩

/-- Formation.creer of the source: build the aggregate with no schedule,
then push one FormationCreee event whose payload copies id, nom and
dureeEnHeures from the freshly built aggregate. -/
def Formation.creer (id nom : String) (dureeEnHeures : Nat) (now : Nat) : Formation :=
  let f : Formation :=
    ⟨some (Value.str id), some (Value.str nom), some (Value.num dureeEnHeures), none, none, []⟩
  ⟨f.id, f.nom, f.dureeEnHeures, f.date, f.nomFormateur,
    f.events ++ [FormationCreee.creer f.id
      (fun k => if k = "id" then f.id else if k = "nom" then f.nom
        else if k = "dureeEnHeures" then f.dureeEnHeures else none) now]⟩

/-- Formation.planifierLe of the source: set date and nomFormateur, then
push one FormationPlanifiee event whose payload copies the two freshly
assigned fields. -/
def Formation.planifierLe (f : Formation) (date nomFormateur : String) (now : Nat) : Formation :=
  ⟨f.id, f.nom, f.dureeEnHeures, some (Value.str date), some (Value.str nomFormateur),
    f.events ++ [FormationPlanifiee.creer f.id
      (fun k => if k = "date" then some (Value.str date)
        else if k = "nomFormateur" then some (Value.str nomFormateur) else none) now]⟩

/-- InMemoryEventStore.add of the source: push the record form of the
event at the end of the private log. -/
def InMemoryEventStore.add (events : List IEvent) (e : DomainEvent) : List IEvent :=
  events ++ [e.toState]

/-- InMemoryEventStore.list of the source: map every stored record back
through DomainEvent.fromState, left to right; the first record with an
unknown tag aborts the whole call with its error. -/
def InMemoryEventStore.list : List IEvent → Except String (List DomainEvent)
  | [] => Except.ok []
  | r :: rs =>
    match DomainEvent.fromState r with
    | Except.error msg => Except.error msg
    | Except.ok e =>
      match InMemoryEventStore.list rs with
      | Except.error msg => Except.error msg
      | Except.ok es => Except.ok (e :: es)

/-- One step of the sort used by getById. The source calls
Array.prototype.sort with the comparator
(prev, cur) => prev.createdAt < cur.createdAt ? -1 : 1.
The engine sorts by repeatedly inserting each element into the already
sorted prefix, placing it before the first element the comparator ranks
strictly after it; with this comparator an element is therefore placed
after every earlier element whose timestamp is not strictly larger, so
elements with equal timestamps keep their original relative order. -/
def insertByCreatedAt (x : DomainEvent) : List DomainEvent → List DomainEvent
  | [] => [x]
  | y :: ys => if x.createdAt < y.createdAt then x :: y :: ys else y :: insertByCreatedAt x ys

/-- The sort of getById: fold the list left to right, inserting each
element into the sorted accumulator. -/
def sortByCreatedAt (l : List DomainEvent) : List DomainEvent :=
  l.foldl (fun acc x => insertByCreatedAt x acc) []

/-- Object spread { ...prev, ...cur } of the reduce in getById, viewed
extensionally: a key present in cur wins, otherwise prev is consulted. -/
def spread (prev cur : Changes) : Changes := fun k =>
  match cur k with
  | some v => some v
  | none => prev k

/-- The filter of getById: keep the events whose aggregateId strictly
equals the requested identifier string. -/
def matchingEvents (evs : List DomainEvent) (i : String) : List DomainEvent :=
  evs.filter (fun e => decide (e.aggregateId = some (Value.str i)))

/-- The projection state built by getById: filter, sort by createdAt,
take the payloads and reduce them with object spread starting from the
empty object. -/
def projection (evs : List DomainEvent) (i : String) : Changes :=
  ((sortByCreatedAt (matchingEvents evs i)).map (fun e => e.changes)).foldl spread emptyChanges

/-- FormationRepository.getById of the source: list the store, filter by
aggregate identifier, sort by createdAt, fold the payloads and rehydrate
a Formation from the merged state. -/
def FormationRepository.getById (store : List IEvent) (i : String) : Except String Formation :=
  match InMemoryEventStore.list store with
  | Except.error msg => Except.error msg
  | Except.ok evs => Except.ok (Formation.fromState (projection evs i))

/-- FormationRepository.persist of the source: append every pending
event of the aggregate to the store, in pending-list order. The
aggregate itself is not modified: its pending list is not cleared. -/
def FormationRepository.persist (f : Formation) (store : List IEvent) : List IEvent :=
  f.events.foldl InMemoryEventStore.add store

/-- The mutable state of an InMemoryEventStore instance: its private
events array. Used to state frame properties of the query methods. -/
structure InMemoryEventStoreState where
  events : List IEvent

/-- InMemoryEventStore.list as a state transformer: the method body maps
over the private array and assigns nothing, so the state component is
returned as received. -/
def InMemoryEventStore.listS (s : InMemoryEventStoreState) :
    Except String (List DomainEvent) × InMemoryEventStoreState :=
  (InMemoryEventStore.list s.events, s)

/-- FormationRepository.getById as a state transformer over the store
state: the only store access is one call to list. -/
def FormationRepository.getByIdS (s : InMemoryEventStoreState) (i : String) :
    Except String Formation × InMemoryEventStoreState :=
  let p := InMemoryEventStore.listS s
  (match p.1 with
   | Except.error msg => Except.error msg
   | Except.ok evs => Except.ok (Formation.fromState (projection evs i)), p.2)

/-- Characterization of last-write-wins folding: the value of key k
after merging a list of payloads is the value of k in the last payload
that defines it. -/
def lastWins (k : String) : List Changes → Option Value
  | [] => none
  | c :: cs =>
    match lastWins k cs with
    | some v => some v
    | none => c k

/-- The comparison the sorted output of getById is ordered by. -/
def byTimeLE (a b : DomainEvent) : Prop := a.createdAt ≤ b.createdAt

lemma mem_insertByCreatedAt {x e : DomainEvent} {l : List DomainEvent}
    (h : e ∈ insertByCreatedAt x l) : e = x ∨ e ∈ l := by
  induction l with
  | nil => simpa [insertByCreatedAt] using h
  | cons y ys ih =>
    rw [insertByCreatedAt] at h
    split at h
    · rcases List.mem_cons.mp h with h | h
      · exact Or.inl h
      · exact Or.inr h
    · rcases List.mem_cons.mp h with h | h
      · subst h
        exact Or.inr (List.mem_cons_self e ys)
      · rcases ih h with h | h
        · exact Or.inl h
        · exact Or.inr (List.mem_cons_of_mem y h)

lemma perm_insertByCreatedAt (x : DomainEvent) (l : List DomainEvent) :
    List.Perm (insertByCreatedAt x l) (x :: l) := by
  induction l with
  | nil => simp [insertByCreatedAt]
  | cons y ys ih =>
    rw [insertByCreatedAt]
    split
    · exact List.Perm.refl _
    · exact List.Perm.trans (List.Perm.cons y ih) (List.Perm.swap x y ys)

lemma pairwise_insertByCreatedAt {x : DomainEvent} {l : List DomainEvent}
    (h : List.Pairwise byTimeLE l) : List.Pairwise byTimeLE (insertByCreatedAt x l) := by
  induction l with
  | nil => simp [insertByCreatedAt, List.Pairwise]
  | cons y ys ih =>
    rw [insertByCreatedAt]
    rcases List.pairwise_cons.mp h with ⟨hy, hys⟩
    split
    · rename_i hlt
      refine List.Pairwise.cons ?_ h
      intro e he
      rcases List.mem_cons.mp he with he | he
      · subst he
        exact Nat.le_of_lt hlt
      · exact Nat.le_trans (Nat.le_of_lt hlt) (hy e he)
    · rename_i hnlt
      refine List.Pairwise.cons ?_ (ih hys)
      intro e he
      rcases mem_insertByCreatedAt he with he | he
      · subst he
        exact Nat.le_of_not_lt hnlt
      · exact hy e he

lemma sortByCreatedAt_perm_aux (l acc : List DomainEvent) :
    List.Perm (l.foldl (fun acc x => insertByCreatedAt x acc) acc) (acc ++ l) := by
  induction l generalizing acc with
  | nil => simp
  | cons x xs ih =>
    refine List.Perm.trans (ih (insertByCreatedAt x acc)) ?_
    refine List.Perm.trans (List.Perm.append_right xs (perm_insertByCreatedAt x acc)) ?_
    exact List.perm_middle.symm

/-- The sort of getById returns a permutation of its input. -/
lemma sortByCreatedAt_perm (l : List DomainEvent) :
    List.Perm (sortByCreatedAt l) l := by
  simpa [sortByCreatedAt] using sortByCreatedAt_perm_aux l []

lemma sortByCreatedAt_pairwise_aux (l acc : List DomainEvent)
    (h : List.Pairwise byTimeLE acc) :
    List.Pairwise byTimeLE (l.foldl (fun acc x => insertByCreatedAt x acc) acc) := by
  induction l generalizing acc with
  | nil => simpa using h
  | cons x xs ih => exact ih _ (pairwise_insertByCreatedAt h)

/-- The sort of getById orders its output ascending by createdAt. -/
lemma sortByCreatedAt_pairwise (l : List DomainEvent) :
    List.Pairwise byTimeLE (sortByCreatedAt l) :=
  sortByCreatedAt_pairwise_aux l [] (by simp)

lemma filter_insertByCreatedAt (x : DomainEvent) (l : List DomainEvent) (t : Nat)
    (hs : List.Pairwise byTimeLE l) :
    (insertByCreatedAt x l).filter (fun e => decide (e.createdAt = t)) =
      if x.createdAt = t then
        l.filter (fun e => decide (e.createdAt = t)) ++ [x]
      else
        l.filter (fun e => decide (e.createdAt = t)) := by
  induction l with
  | nil =>
    rw [insertByCreatedAt]
    by_cases hx : x.createdAt = t
    · simp [hx]
    · simp [hx]
  | cons y ys ih =>
    rcases List.pairwise_cons.mp hs with ⟨hy, hys⟩
    rw [insertByCreatedAt]
    split
    · rename_i hlt
      have hne : ∀ e ∈ y :: ys, ¬ e.createdAt = t ∨ ¬ x.createdAt = t := by
        intro e he
        by_cases hx : x.createdAt = t
        · refine Or.inl ?_
          have hge : y.createdAt ≤ e.createdAt := by
            rcases List.mem_cons.mp he with he | he
            · subst he; exact Nat.le_refl _
            · exact hy e he
          omega
        · exact Or.inr hx
      by_cases hx : x.createdAt = t
      · have hnil : (y :: ys).filter (fun e => decide (e.createdAt = t)) = [] := by
          refine List.filter_eq_nil_iff.mpr ?_
          intro e he
          rcases hne e he with h | h
          · simpa using h
          · exact absurd hx h
        simp only [hx, if_pos]
        rw [List.filter_cons_of_pos (by simpa using hx), hnil]
        rfl
      · simp only [hx, if_neg, not_false_iff]
        rw [List.filter_cons_of_neg (by simpa using hx)]
    · rename_i hnlt
      by_cases hyt : y.createdAt = t
      · rw [List.filter_cons_of_pos (by simpa using hyt),
          List.filter_cons_of_pos (by simpa using hyt), ih hys]
        by_cases hx : x.createdAt = t
        · simp [hx]
        · simp [hx]
      · rw [List.filter_cons_of_neg (by simpa using hyt),
          List.filter_cons_of_neg (by simpa using hyt), ih hys]

lemma filter_sortByCreatedAt_aux (l acc : List DomainEvent) (t : Nat)
    (h : List.Pairwise byTimeLE acc) :
    (l.foldl (fun acc x => insertByCreatedAt x acc) acc).filter
        (fun e => decide (e.createdAt = t)) =
      acc.filter (fun e => decide (e.createdAt = t)) ++
        l.filter (fun e => decide (e.createdAt = t)) := by
  induction l generalizing acc with
  | nil => simp
  | cons x xs ih =>
    rw [List.foldl_cons, ih _ (pairwise_insertByCreatedAt h),
      filter_insertByCreatedAt x acc t h]
    by_cases hx : x.createdAt = t
    · rw [if_pos hx, List.filter_cons_of_pos (by simpa using hx), List.append_assoc]
      rfl
    · rw [if_neg hx, List.filter_cons_of_neg (by simpa using hx)]

/-- Stability of the sort of getById: for each fixed timestamp, the
events carrying that timestamp appear in the output in the same order
as in the input. -/
lemma filter_sortByCreatedAt (l : List DomainEvent) (t : Nat) :
    (sortByCreatedAt l).filter (fun e => decide (e.createdAt = t)) =
      l.filter (fun e => decide (e.createdAt = t)) := by
  simpa [sortByCreatedAt] using filter_sortByCreatedAt_aux l [] t (by simp)

lemma foldl_spread_eq_aux (cs : List Changes) (init : Changes) (k : String) :
    (cs.foldl spread init) k =
      match lastWins k cs with
      | some v => some v
      | none => init k := by
  induction cs generalizing init with
  | nil => simp [lastWins]
  | cons c cs ih =>
    rw [List.foldl_cons, ih]
    rw [lastWins]
    rcases hcs : lastWins k cs with _ | v
    · rcases hc : c k with _ | w
      · simp [spread, hc]
      · simp [spread, hc]
    · rfl

/-- The reduce of getById is last-write-wins per key: the merged value
of a key is its value in the last payload of the list that defines it. -/
lemma foldl_spread_eq (cs : List Changes) (k : String) :
    (cs.foldl spread emptyChanges) k = lastWins k cs := by
  rw [foldl_spread_eq_aux]
  rcases lastWins k cs with _ | v
  · rfl
  · rfl

lemma fromState_ok_toState {r : IEvent} {e : DomainEvent}
    (h : DomainEvent.fromState r = Except.ok e) : e.toState = r := by
  rcases r with ⟨nom, changes, createdAt, aggregateId⟩
  rw [DomainEvent.fromState] at h
  split at h
  · rename_i hnom
    simp only [Except.ok.injEq] at h
    subst h
    simp_all [DomainEvent.toState, DomainEvent.nom, DomainEvent.changes,
      DomainEvent.createdAt, DomainEvent.aggregateId]
  · split at h
    · rename_i hnom
      simp only [Except.ok.injEq] at h
      subst h
      simp_all [DomainEvent.toState, DomainEvent.nom, DomainEvent.changes,
        DomainEvent.createdAt, DomainEvent.aggregateId]
    · exact absurd h (by simp)

lemma list_ok_map_toState {store : List IEvent} {evs : List DomainEvent}
    (h : InMemoryEventStore.list store = Except.ok evs) :
    evs.map DomainEvent.toState = store := by
  induction store generalizing evs with
  | nil =>
    rw [InMemoryEventStore.list] at h
    simp only [Except.ok.injEq] at h
    subst h
    rfl
  | cons r rs ih =>
    rw [InMemoryEventStore.list] at h
    rcases hr : DomainEvent.fromState r with msg | e
    · rw [hr] at h
      exact absurd h (by simp)
    · rw [hr] at h
      rcases hl : InMemoryEventStore.list rs with msg | es
      · rw [hl] at h
        exact absurd h (by simp)
      · rw [hl] at h
        simp only [Except.ok.injEq] at h
        subst h
        rw [List.map_cons, ih hl, fromState_ok_toState hr]

lemma persist_eq_append_aux (es : List DomainEvent) (store : List IEvent) :
    es.foldl InMemoryEventStore.add store = store ++ es.map DomainEvent.toState := by
  induction es generalizing store with
  | nil => simp
  | cons e es ih =>
    rw [List.foldl_cons, ih]
    simp [InMemoryEventStore.add]

/-- persist appends exactly the record forms of the pending events, in
pending-list order. -/
lemma persist_eq_append (f : Formation) (store : List IEvent) :
    FormationRepository.persist f store = store ++ f.events.map DomainEvent.toState :=
  persist_eq_append_aux f.events store

/-- Address of a mutable changes object on the JavaScript heap. -/
abbrev Ref := Nat

/-- The heap of mutable changes objects: the address of an object is its
index in the list. The value-level model above reads payloads
extensionally; this refined view additionally tracks which object a
payload field points at, because the source copies changes fields by
reference, never by value. -/
structure ChangesHeap where
  objs : List Changes

/-- Dereference: the object an address designates. -/
def readRef (h : ChangesHeap) (r : Ref) : Changes :=
  h.objs.getD r emptyChanges

/-- Assign one key of the object an address designates: the mutation a
caller can perform on any changes object it holds a reference to. -/
def writeKey (h : ChangesHeap) (r : Ref) (k : String) (v : Option Value) : ChangesHeap :=
  ⟨h.objs.set r (fun q => if q = k then v else readRef h r q)⟩

/-- The event record at the heap level: the changes field holds a
reference to the payload object, as a JavaScript object field does. -/
structure IEventRef where
  nom : String
  changes : Ref
  createdAt : Nat
  aggregateId : Option Value

/-- The domain event at the heap level: the DomainEvent constructor of
the source stores the changes argument by reference
(this.changes = changes), so the event and whoever supplied the payload
share one object. -/
inductive DomainEventRef where
  | formationCreee (aggregateId : Option Value) (changes : Ref) (createdAt : Nat)
  | formationPlanifiee (aggregateId : Option Value) (changes : Ref) (createdAt : Nat)

def DomainEventRef.nom : DomainEventRef → String
  | .formationCreee _ _ _ => "FORMATION_CREEE"
  | .formationPlanifiee _ _ _ => "FORMATION_PLANIFIEE"

def DomainEventRef.aggregateId : DomainEventRef → Option Value
  | .formationCreee a _ _ => a
  | .formationPlanifiee a _ _ => a

def DomainEventRef.changes : DomainEventRef → Ref
  | .formationCreee _ c _ => c
  | .formationPlanifiee _ c _ => c

def DomainEventRef.createdAt : DomainEventRef → Nat
  | .formationCreee _ _ t => t
  | .formationPlanifiee _ _ t => t

/-- DomainEvent.toState at the heap level: the returned record holds
this.changes, the same reference the event holds. -/
def DomainEventRef.toState (e : DomainEventRef) : IEventRef :=
  ⟨e.nom, e.changes, e.createdAt, e.aggregateId⟩

/-- DomainEvent.fromState at the heap level: the reconstructed event
receives e.changes, the very reference stored in the record, so the
returned event and the stored record share the payload object. -/
def DomainEventRef.fromState (e : IEventRef) : Except String DomainEventRef :=
  if e.nom = "FORMATION_CREEE" then
    Except.ok (DomainEventRef.formationCreee e.aggregateId e.changes e.createdAt)
  else if e.nom = "FORMATION_PLANIFIEE" then
    Except.ok (DomainEventRef.formationPlanifiee e.aggregateId e.changes e.createdAt)
  else
    Except.error unknownEventKindMessage

/-- InMemoryEventStore.list at the heap level: a fresh array of fresh
event wrappers, each built by fromState from a stored record. -/
def InMemoryEventStore.listRef : List IEventRef → Except String (List DomainEventRef)
  | [] => Except.ok []
  | r :: rs =>
    match DomainEventRef.fromState r with
    | Except.error msg => Except.error msg
    | Except.ok e =>
      match InMemoryEventStore.listRef rs with
      | Except.error msg => Except.error msg
      | Except.ok es => Except.ok (e :: es)

/-- The store state at the heap level: the heap of payload objects and
the private records array. -/
structure InMemoryEventStoreRefState where
  heap : ChangesHeap
  events : List IEventRef

/-- list as a state transformer at the heap level: the call itself
assigns nothing, so heap and records are returned as received. -/
def InMemoryEventStore.listRefS (s : InMemoryEventStoreRefState) :
    Except String (List DomainEventRef) × InMemoryEventStoreRefState :=
  (InMemoryEventStore.listRef s.events, s)

/-- A stored record read at the value level: the record with its payload
object dereferenced. -/
def derefRecord (h : ChangesHeap) (r : IEventRef) : IEvent :=
  ⟨r.nom, readRef h r.changes, r.createdAt, r.aggregateId⟩

lemma refFromState_ok_toState {r : IEventRef} {e : DomainEventRef}
    (h : DomainEventRef.fromState r = Except.ok e) : e.toState = r := by
  rcases r with ⟨nom, changes, createdAt, aggregateId⟩
  rw [DomainEventRef.fromState] at h
  split at h
  · rename_i hnom
    simp only [Except.ok.injEq] at h
    subst h
    simp_all [DomainEventRef.toState, DomainEventRef.nom, DomainEventRef.changes,
      DomainEventRef.createdAt, DomainEventRef.aggregateId]
  · split at h
    · rename_i hnom
      simp only [Except.ok.injEq] at h
      subst h
      simp_all [DomainEventRef.toState, DomainEventRef.nom, DomainEventRef.changes,
        DomainEventRef.createdAt, DomainEventRef.aggregateId]
    · exact absurd h (by simp)

lemma listRef_ok_map_toState {store : List IEventRef} {evs : List DomainEventRef}
    (h : InMemoryEventStore.listRef store = Except.ok evs) :
    evs.map DomainEventRef.toState = store := by
  induction store generalizing evs with
  | nil =>
    rw [InMemoryEventStore.listRef] at h
    simp only [Except.ok.injEq] at h
    subst h
    rfl
  | cons r rs ih =>
    rw [InMemoryEventStore.listRef] at h
    rcases hr : DomainEventRef.fromState r with msg | e
    · rw [hr] at h
      exact absurd h (by simp)
    · rw [hr] at h
      rcases hl : InMemoryEventStore.listRef rs with msg | es
      · rw [hl] at h
        exact absurd h (by simp)
      · rw [hl] at h
        simp only [Except.ok.injEq] at h
        subst h
        rw [List.map_cons, ih hl, refFromState_ok_toState hr]

lemma listRef_ok_changes_get (store : List IEventRef) (evs : List DomainEventRef)
    (j : Nat) (h : InMemoryEventStore.listRef store = Except.ok evs)
    (hj : j < evs.length) (hj2 : j < store.length) :
    (evs.get ⟨j, hj⟩).changes = (store.get ⟨j, hj2⟩).changes := by
  induction store generalizing evs j with
  | nil => exact absurd hj2 (Nat.not_lt_zero j)
  | cons r rs ih =>
    rw [InMemoryEventStore.listRef] at h
    rcases he : DomainEventRef.fromState r with msg | e
    · rw [he] at h
      exact absurd h (by simp)
    · rw [he] at h
      rcases hl : InMemoryEventStore.listRef rs with msg | es
      · rw [hl] at h
        exact absurd h (by simp)
      · rw [hl] at h
        simp only [Except.ok.injEq] at h
        subst h
        cases j with
        | zero =>
          show e.changes = r.changes
          rw [← refFromState_ok_toState he]
          rfl
        | succ j =>
          exact ih es j hl (Nat.lt_of_succ_lt_succ hj) (Nat.lt_of_succ_lt_succ hj2)

lemma getD_set_self (l : List Changes) (r : Nat) (c : Changes) (hr : r < l.length) :
    (l.set r c).getD r emptyChanges = c := by
  induction l generalizing r with
  | nil => exact absurd hr (Nat.not_lt_zero r)
  | cons x xs ih =>
    cases r with
    | zero => rfl
    | succ r => exact ih r (Nat.lt_of_succ_lt_succ hr)

/-- Writing a key through a valid reference is visible when the same
reference is read back. -/
lemma readRef_writeKey_self (h : ChangesHeap) (r : Ref) (k : String) (v : Option Value)
    (hr : r < h.objs.length) :
    readRef (writeKey h r k v) r k = v := by
  unfold readRef writeKey
  rw [getD_set_self _ _ _ hr]
  simp

/-- Payload of the first example event of the fold-ordering scenario. -/
def exC1 : Changes := fun k => if k = "a" then some (Value.num 1) else none

/-- Payload of the second example event of the fold-ordering scenario. -/
def exC2 : Changes := fun k =>
  if k = "a" then some (Value.num 2) else if k = "b" then some (Value.num 1) else none

/-- Payload of the third example event of the fold-ordering scenario. -/
def exC3 : Changes := fun k => if k = "b" then some (Value.num 2) else none

/-- Example record E1 with timestamp 1 and payload mapping a to 1. -/
def exR1 : IEvent := ⟨"FORMATION_CREEE", exC1, 1, some (Value.str "A")⟩

/-- Example record E2 with timestamp 3 and payload mapping a to 2 and b to 1. -/
def exR2 : IEvent := ⟨"FORMATION_CREEE", exC2, 3, some (Value.str "A")⟩

/-- Example record E3 with timestamp 2 and payload mapping b to 2. -/
def exR3 : IEvent := ⟨"FORMATION_CREEE", exC3, 2, some (Value.str "A")⟩

/-- The example store of the fold-ordering scenario, in append order
E1, E2, E3. -/
def exStore : List IEvent := [exR1, exR2, exR3]

/-- The domain events the example store lists back. -/
def exE1 : DomainEvent := DomainEvent.formationCreee (some (Value.str "A")) exC1 1

def exE2 : DomainEvent := DomainEvent.formationCreee (some (Value.str "A")) exC2 3

def exE3 : DomainEvent := DomainEvent.formationCreee (some (Value.str "A")) exC3 2

def exEvents : List DomainEvent := [exE1, exE2, exE3]

example : InMemoryEventStore.list exStore = Except.ok exEvents := rfl
example : sortByCreatedAt (matchingEvents exEvents "A") = [exE1, exE3, exE2] := rfl
example : projection exEvents "A" "a" = some (Value.num 2) := rfl
example : projection exEvents "A" "b" = some (Value.num 1) := rfl
example : projection exEvents "A" "zzz" = none := rfl

/-- A record whose kind tag is not in the closed variant set. -/
def recNope : IEvent := ⟨"NOPE", emptyChanges, 0, some (Value.str "A")⟩

/-- A second record with a different unknown kind tag. -/
def recAutre : IEvent := ⟨"AUTRE", emptyChanges, 0, some (Value.str "A")⟩

/-- C2: for every event variant and every event e of that variant,
fromState (toState e) reproduces e exactly, kind tag, aggregateId,
createdAt and changes included; in particular the stored createdAt is
preserved, not regenerated. -/
theorem domainEvent_roundTrip (e : DomainEvent) :
    DomainEvent.fromState e.toState = Except.ok e := by
  cases e <;> rfl

/-- C3 counterexample: reconstructing from two records with different
unknown kind tags produces the very same error value, the fixed message
thrown by the source, so the error does not carry the unrecognized
name. -/
theorem fromState_unknown_constant_error :
    DomainEvent.fromState recNope = Except.error unknownEventKindMessage ∧
    DomainEvent.fromState recAutre = Except.error unknownEventKindMessage ∧
    recNope.nom ≠ recAutre.nom ∧
    DomainEvent.fromState recNope = DomainEvent.fromState recAutre :=
  ⟨rfl, rfl, by decide, rfl⟩

/-- C3 amended: for a record whose kind tag is neither known tag,
fromState fails with the fixed unknown-event-kind error, which does not
carry the unrecognized name; for each of the two known tags it returns
the matching variant populated from the record and never fails. -/
theorem fromState_dispatch_total (e : IEvent) :
    (e.nom = "FORMATION_CREEE" →
      DomainEvent.fromState e =
        Except.ok (DomainEvent.formationCreee e.aggregateId e.changes e.createdAt)) ∧
    (e.nom = "FORMATION_PLANIFIEE" →
      DomainEvent.fromState e =
        Except.ok (DomainEvent.formationPlanifiee e.aggregateId e.changes e.createdAt)) ∧
    (e.nom ≠ "FORMATION_CREEE" → e.nom ≠ "FORMATION_PLANIFIEE" →
      DomainEvent.fromState e = Except.error unknownEventKindMessage) := by
  refine ⟨?_, ?_, ?_⟩
  · intro h
    rw [DomainEvent.fromState, if_pos h]
  · intro h
    have hne : ¬ e.nom = "FORMATION_CREEE" := by
      rw [h]; decide
    rw [DomainEvent.fromState, if_neg hne, if_pos h]
  · intro h1 h2
    rw [DomainEvent.fromState, if_neg h1, if_neg h2]

theorem fromState_dispatch_total_witness :
    DomainEvent.fromState recNope = Except.error unknownEventKindMessage :=
  (fromState_dispatch_total recNope).2.2 (by decide) (by decide)

/-- C4: persist appends exactly the record forms of the pending events
of the aggregate, in pending-list order; the aggregate value is not
changed (its pending list is not cleared), so a second persist with no
intervening mutation appends the same events again. -/
theorem persist_appends_pending_in_order (f : Formation) (store : List IEvent) :
    FormationRepository.persist f store = store ++ f.events.map DomainEvent.toState ∧
    FormationRepository.persist f (FormationRepository.persist f store) =
      store ++ f.events.map DomainEvent.toState ++ f.events.map DomainEvent.toState := by
  refine ⟨persist_eq_append f store, ?_⟩
  rw [persist_eq_append, persist_eq_append]

/-- Value-level companion of the listing contract: when listing
succeeds, the returned domain events serialize back to exactly the
stored records, in append order, and the call itself leaves the store
state unchanged. The identity of the payload objects is outside this
value-level view; the heap-level theorems below settle it. -/
theorem list_converts_all_in_append_order (store : List IEvent) (evs : List DomainEvent)
    (h : InMemoryEventStore.list store = Except.ok evs) :
    evs.map DomainEvent.toState = store ∧
    evs.length = store.length ∧
    (InMemoryEventStore.listS ⟨store⟩).2 = ⟨store⟩ := by
  refine ⟨list_ok_map_toState h, ?_, rfl⟩
  have hmap := list_ok_map_toState h
  calc evs.length = (evs.map DomainEvent.toState).length := (List.length_map _ _).symm
    _ = store.length := by rw [hmap]

theorem list_converts_all_in_append_order_witness :
    exEvents.map DomainEvent.toState = exStore ∧
    exEvents.length = exStore.length ∧
    (InMemoryEventStore.listS ⟨exStore⟩).2 = ⟨exStore⟩ :=
  list_converts_all_in_append_order exStore exEvents rfl

/-- C8: rehydration is fully determined by the five known fields of the
projection state (two states agreeing there rehydrate identically, so
no other key matters), missing optional fields come out as none, and
the pending-events list of a rehydrated aggregate is empty. -/
theorem formation_fromState_determined (s1 s2 s : Changes)
    (hid : s1 "id" = s2 "id") (hnom : s1 "nom" = s2 "nom")
    (hdur : s1 "dureeEnHeures" = s2 "dureeEnHeures")
    (hdate : s1 "date" = s2 "date") (hfor : s1 "nomFormateur" = s2 "nomFormateur") :
    Formation.fromState s1 = Formation.fromState s2 ∧
    (Formation.fromState s).events = [] ∧
    (s "date" = none → (Formation.fromState s).date = none) ∧
    (s "nomFormateur" = none → (Formation.fromState s).nomFormateur = none) := by
  refine ⟨?_, rfl, fun h => h, fun h => h⟩
  rw [Formation.fromState, Formation.fromState, hid, hnom, hdur, hdate, hfor]

theorem formation_fromState_determined_witness :
    Formation.fromState exC1 = Formation.fromState emptyChanges :=
  (formation_fromState_determined exC1 emptyChanges emptyChanges rfl rfl rfl rfl rfl).1

/-- C9: when no event in the (successfully listed) store matches the
requested identifier, getById does not fail: it silently returns the
degenerate aggregate whose five fields are all absent and whose pending
list is empty. -/
theorem getById_zero_matching_silent (store : List IEvent) (i : String)
    (evs : List DomainEvent) (h : InMemoryEventStore.list store = Except.ok evs)
    (hm : matchingEvents evs i = []) :
    FormationRepository.getById store i = Except.ok ⟨none, none, none, none, none, []⟩ := by
  simp only [FormationRepository.getById, h]
  rw [projection, hm]
  rfl

theorem getById_zero_matching_silent_witness :
    FormationRepository.getById exStore "UNKNOWN" =
      Except.ok ⟨none, none, none, none, none, []⟩ :=
  getById_zero_matching_silent exStore "UNKNOWN" exEvents rfl rfl

/-- C10: getById is a pure query of the store: as a state transformer it
returns the store state exactly as received, and its result is the pure
function of the stored records. -/
theorem getById_leaves_store_unchanged (s : InMemoryEventStoreState) (i : String) :
    (FormationRepository.getByIdS s i).2 = s ∧
    (FormationRepository.getByIdS s i).1 = FormationRepository.getById s.events i :=
  ⟨rfl, rfl⟩

/-- C1: for every successfully listed store, getById rehydrates from the
projection obtained by retaining only the events whose aggregateId
equals the requested id, sorting them ascending by createdAt with
equal-timestamp events keeping their store order (the per-timestamp
filter of the sorted output equals that of the input), and folding the
payloads left to right so that the last payload defining a key wins; on
the concrete scenario E1(t=1, a=1), E2(t=3, a=2 and b=1), E3(t=2, b=2)
appended in order E1, E2, E3 the sort yields E1, E3, E2 and the merged
state maps a to 2 and b to 1 and nothing else. -/
theorem getById_filters_sorts_folds (store : List IEvent) (i : String)
    (evs : List DomainEvent) (t : Nat) (k : String)
    (h : InMemoryEventStore.list store = Except.ok evs) :
    FormationRepository.getById store i =
      Except.ok (Formation.fromState (projection evs i)) ∧
    (matchingEvents evs i).all (fun e => decide (e.aggregateId = some (Value.str i))) = true ∧
    List.Perm (sortByCreatedAt (matchingEvents evs i)) (matchingEvents evs i) ∧
    List.Pairwise byTimeLE (sortByCreatedAt (matchingEvents evs i)) ∧
    (sortByCreatedAt (matchingEvents evs i)).filter (fun e => decide (e.createdAt = t)) =
      (matchingEvents evs i).filter (fun e => decide (e.createdAt = t)) ∧
    projection evs i k =
      lastWins k ((sortByCreatedAt (matchingEvents evs i)).map (fun e => e.changes)) ∧
    sortByCreatedAt (matchingEvents exEvents "A") = [exE1, exE3, exE2] ∧
    projection exEvents "A" k =
      (if k = "a" then some (Value.num 2) else if k = "b" then some (Value.num 1) else none) := by
  refine ⟨?_, ?_, sortByCreatedAt_perm _, sortByCreatedAt_pairwise _,
    filter_sortByCreatedAt _ t, foldl_spread_eq _ k, rfl, ?_⟩
  · simp only [FormationRepository.getById, h]
  · refine List.all_eq_true.mpr ?_
    intro e he
    have he2 : e ∈ evs.filter (fun e => decide (e.aggregateId = some (Value.str i))) := he
    simpa using List.of_mem_filter he2
  · have hs : sortByCreatedAt (matchingEvents exEvents "A") = [exE1, exE3, exE2] := rfl
    simp only [projection, hs]
    by_cases ha : k = "a"
    · subst ha
      rfl
    · by_cases hb : k = "b"
      · subst hb
        rfl
      · simp [List.map, List.foldl, spread, exE1, exE2, exE3, DomainEvent.changes,
          exC1, exC2, exC3, emptyChanges, ha, hb]

theorem getById_filters_sorts_folds_witness :
    sortByCreatedAt (matchingEvents exEvents "A") = [exE1, exE3, exE2] ∧
    projection exEvents "A" "a" = some (Value.num 2) :=
  ⟨(getById_filters_sorts_folds exStore "A" exEvents 1 "a" rfl).2.2.2.2.2.2.1,
   (getById_filters_sorts_folds exStore "A" exEvents 1 "a" rfl).2.2.2.2.2.2.2⟩

/-- C5: creer builds the aggregate with no schedule and exactly one
pending FormationCreee event whose payload holds id, nom and
dureeEnHeures; persisting it into an empty store and reading it back by
id yields the Formation with those three fields set, no schedule and an
empty pending list. -/
theorem creer_then_persist_then_getById (t : Nat) :
    (Formation.creer "X" "Name" 10 t).date = none ∧
    (Formation.creer "X" "Name" 10 t).nomFormateur = none ∧
    (Formation.creer "X" "Name" 10 t).id = some (Value.str "X") ∧
    (Formation.creer "X" "Name" 10 t).nom = some (Value.str "Name") ∧
    (Formation.creer "X" "Name" 10 t).dureeEnHeures = some (Value.num 10) ∧
    (Formation.creer "X" "Name" 10 t).events =
      [DomainEvent.formationCreee (some (Value.str "X"))
        (fun k => if k = "id" then some (Value.str "X")
          else if k = "nom" then some (Value.str "Name")
          else if k = "dureeEnHeures" then some (Value.num 10) else none) t] ∧
    FormationRepository.getById
        (FormationRepository.persist (Formation.creer "X" "Name" 10 t) []) "X" =
      Except.ok ⟨some (Value.str "X"), some (Value.str "Name"), some (Value.num 10),
        none, none, []⟩ :=
  ⟨rfl, rfl, rfl, rfl, rfl, rfl, rfl⟩

/-- The payload of the creation event of the C6 scenario aggregate. -/
def creeChangesX : Changes := fun k =>
  if k = "id" then some (Value.str "X") else if k = "nom" then some (Value.str "Name")
  else if k = "dureeEnHeures" then some (Value.num 10) else none

/-- The payload of the scheduling event of the C6 scenario. -/
def planifChangesX : Changes := fun k =>
  if k = "date" then some (Value.str "2021-05-01")
  else if k = "nomFormateur" then some (Value.str "Alice") else none

/-- The creation event of the C6 scenario at clock reading t. -/
def cEvX (t : Nat) : DomainEvent :=
  DomainEvent.formationCreee (some (Value.str "X")) creeChangesX t

/-- The scheduling event of the C6 scenario at clock reading t. -/
def pEvX (t : Nat) : DomainEvent :=
  DomainEvent.formationPlanifiee (some (Value.str "X")) planifChangesX t

/-- The aggregate rehydrated after creating and persisting X. -/
def rehydratedX : Formation :=
  ⟨some (Value.str "X"), some (Value.str "Name"), some (Value.num 10), none, none, []⟩

lemma sort_two_scenario (t1 t2 : Nat) :
    sortByCreatedAt (matchingEvents [cEvX t1, pEvX t2] "X") = [pEvX t2, cEvX t1] ∨
    sortByCreatedAt (matchingEvents [cEvX t1, pEvX t2] "X") = [cEvX t1, pEvX t2] := by
  rcases Nat.lt_or_ge t2 t1 with h | h
  · left
    show insertByCreatedAt (pEvX t2) [cEvX t1] = _
    simp [insertByCreatedAt, pEvX, cEvX, DomainEvent.createdAt, h]
  · right
    show insertByCreatedAt (pEvX t2) [cEvX t1] = _
    have hn : ¬ (pEvX t2).createdAt < (cEvX t1).createdAt := by
      simp only [pEvX, cEvX, DomainEvent.createdAt]
      omega
    simp [insertByCreatedAt, hn]

/-- C6: planifierLe sets date and nomFormateur and appends exactly one
FormationPlanifiee event with payload date and nomFormateur, leaving
id, nom and dureeEnHeures untouched, for every aggregate; and in the
create, persist, reload, schedule, persist, reload scenario the final
getById reflects the new date and instructor while id, nom and
dureeEnHeures are unchanged, whatever the two clock readings were. -/
theorem planifierLe_updates_schedule_only (f : Formation) (d n : String) (t1 t2 : Nat) :
    ((f.planifierLe d n t2).date = some (Value.str d) ∧
     (f.planifierLe d n t2).nomFormateur = some (Value.str n) ∧
     (f.planifierLe d n t2).id = f.id ∧
     (f.planifierLe d n t2).nom = f.nom ∧
     (f.planifierLe d n t2).dureeEnHeures = f.dureeEnHeures ∧
     (f.planifierLe d n t2).events = f.events ++
       [DomainEvent.formationPlanifiee f.id
         (fun k => if k = "date" then some (Value.str d)
           else if k = "nomFormateur" then some (Value.str n) else none) t2]) ∧
    FormationRepository.getById
        (FormationRepository.persist (Formation.creer "X" "Name" 10 t1) []) "X" =
      Except.ok rehydratedX ∧
    FormationRepository.getById
        (FormationRepository.persist (rehydratedX.planifierLe "2021-05-01" "Alice" t2)
          (FormationRepository.persist (Formation.creer "X" "Name" 10 t1) [])) "X" =
      Except.ok ⟨some (Value.str "X"), some (Value.str "Name"), some (Value.num 10),
        some (Value.str "2021-05-01"), some (Value.str "Alice"), []⟩ := by
  refine ⟨⟨rfl, rfl, rfl, rfl, rfl, rfl⟩, rfl, ?_⟩
  have h1 : FormationRepository.getById
      (FormationRepository.persist (rehydratedX.planifierLe "2021-05-01" "Alice" t2)
        (FormationRepository.persist (Formation.creer "X" "Name" 10 t1) [])) "X" =
      Except.ok (Formation.fromState (projection [cEvX t1, pEvX t2] "X")) := rfl
  rw [h1]
  simp only [projection]
  rcases sort_two_scenario t1 t2 with hs | hs <;> rw [hs] <;> rfl

/-- A one-object heap: object 0 is the payload mapping a to 1. -/
def exHeap : ChangesHeap := ⟨[exC1]⟩

/-- A stored record whose payload field points at heap object 0. -/
def exRecRef : IEventRef := ⟨"FORMATION_CREEE", 0, 1, some (Value.str "A")⟩

/-- The event wrapper listing that record returns: it holds the same
payload reference 0. -/
def exEvRef : DomainEventRef :=
  DomainEventRef.formationCreee (some (Value.str "A")) 0 1

/-- C7 counterexample: list returns a fresh wrapper, but the wrapper
holds the very payload reference stored in the record (fromState passes
e.changes through, and the DomainEvent constructor assigns
this.changes = changes by reference); before any mutation the stored
record reads a as 1, and after a caller assigns a through the returned
element the stored record reads a as 9, so a mutation performed
through an element of the returned collection does change the store
contents, refuting the claimed independence. -/
theorem listRef_element_mutation_reaches_store :
    InMemoryEventStore.listRef [exRecRef] = Except.ok [exEvRef] ∧
    exEvRef.changes = exRecRef.changes ∧
    (derefRecord exHeap exRecRef).changes "a" = some (Value.num 1) ∧
    (derefRecord (writeKey exHeap exEvRef.changes "a" (some (Value.num 9)))
        exRecRef).changes "a" = some (Value.num 9) :=
  ⟨rfl, rfl, rfl, rfl⟩

/-- C7 amended: listAll returns every record in the log converted into
a domain event instance, in append order, and the call itself leaves
the store unchanged (the returned array is fresh); but each returned
instance holds the stored record its position corresponds to by
payload reference, so writing a key through a returned element is
visible at the stored record payload. -/
theorem listRef_converts_and_aliases (heap : ChangesHeap) (store : List IEventRef)
    (evs : List DomainEventRef) (j : Nat) (k : String) (v : Option Value)
    (h : InMemoryEventStore.listRef store = Except.ok evs)
    (hj : j < evs.length) (hj2 : j < store.length)
    (hr : (store.get ⟨j, hj2⟩).changes < heap.objs.length) :
    evs.map DomainEventRef.toState = store ∧
    (InMemoryEventStore.listRefS ⟨heap, store⟩).2 = ⟨heap, store⟩ ∧
    (evs.get ⟨j, hj⟩).changes = (store.get ⟨j, hj2⟩).changes ∧
    readRef (writeKey heap ((evs.get ⟨j, hj⟩).changes) k v)
      ((store.get ⟨j, hj2⟩).changes) k = v := by
  have hg := listRef_ok_changes_get store evs j h hj hj2
  refine ⟨listRef_ok_map_toState h, rfl, hg, ?_⟩
  rw [hg]
  exact readRef_writeKey_self heap _ k v hr

theorem listRef_converts_and_aliases_witness :
    readRef (writeKey exHeap exEvRef.changes "a" (some (Value.num 9)))
        exRecRef.changes "a" = some (Value.num 9) :=
  (listRef_converts_and_aliases exHeap [exRecRef] [exEvRef] 0 "a" (some (Value.num 9))
    rfl (by decide) (by decide) (by decide)).2.2.2
